import Mathlib

/-!
Verification of the finite-difference scheme engine in
`src/finite_difference.py`.

The script numerically approximates x'(t) = λ x(t) on the grid
t_i = i·h, h = T/N, using three recurrences (backward, forward,
central), compares with the exact solution x0·exp(λ t), and reports a
stability diagnostic for the forward scheme.  The floating-point
arrays of the script are embedded as real-valued sequences: each numpy
array of length N+1 becomes a function ℕ → ℝ whose values at indices
0..N are the array entries, filled by the same recurrence the loop
executes.
-/

namespace FiniteDifference

noncomputable section

/-- Step size, from `h = T / N` (line 78).  `N` is the number of
subintervals. -/
def h (T : ℝ) (N : ℕ) : ℝ := T / N

/-- Grid point `t_i`, from `t = np.linspace(0, T, N + 1)` (line 79):
the i-th of N+1 evenly spaced samples from 0 to T, i.e. `i * (T/N)`. -/
def t (T : ℝ) (N : ℕ) (i : ℕ) : ℝ := i * h T N

/-- The grid as an ordered sequence of N+1 sample times, the embedding
of the array produced by `np.linspace(0, T, N + 1)` (line 79). -/
def grid (T : ℝ) (N : ℕ) : List ℝ := (List.range (N + 1)).map (t T N)

/-- Exact solution samples, from `x_exact = x0 * np.exp(lam * t)`
(line 85): elementwise `x0 * exp(λ t_i)`, no further processing. -/
def x_exact (lam x0 T : ℝ) (N : ℕ) (i : ℕ) : ℝ :=
  x0 * Real.exp (lam * t T N i)

/-- Backward difference scheme (lines 91–95):
`x_backward[0] = x0`; for `i` in 1..N,
`x_backward[i] = x_backward[i-1] / (1 - h*lam)`.  The loop divides
unconditionally: there is no guard on the denominator. -/
def x_backward (lam h x0 : ℝ) : ℕ → ℝ
  | 0 => x0
  | i + 1 => x_backward lam h x0 i / (1 - h * lam)

/-- Forward difference scheme (lines 101–105):
`x_forward[0] = x0`; for `i` in 0..N−1,
`x_forward[i+1] = x_forward[i] * (1 + h*lam)`. -/
def x_forward (lam h x0 : ℝ) : ℕ → ℝ
  | 0 => x0
  | i + 1 => x_forward lam h x0 i * (1 + h * lam)

/-- Central difference scheme (lines 111–116):
`x_central[0] = x0`; `x_central[1] = x_exact[1]` (seed from the exact
solution); for `i` in 1..N−1,
`x_central[i+1] = x_central[i-1] + 2*h*lam*x_central[i]`. -/
def x_central (lam x0 T : ℝ) (N : ℕ) : ℕ → ℝ
  | 0 => x0
  | 1 => x_exact lam x0 T N 1
  | i + 2 => x_central lam x0 T N i + 2 * h T N * lam * x_central lam x0 T N (i + 1)

/-- Stability diagnostic, from
`forward_stable = abs(1 + h * lam) < 1` (line 134). -/
def forward_stable (h lam : ℝ) : Prop := |1 + h * lam| < 1

/-- The whole scheme engine as one pure function of its scalar inputs:
the three trajectories produced by a single run of the script on
(λ, T, x0, N). -/
def pipeline (lam T x0 : ℝ) (N : ℕ) : (ℕ → ℝ) × (ℕ → ℝ) × (ℕ → ℝ) :=
  (x_backward lam (h T N) x0, x_forward lam (h T N) x0, x_central lam x0 T N)

end

/-- C1: for every real λ, h, x0 and integer N ≥ 1, the forward-scheme
trajectory satisfies `x_forward[0] = x0` and
`x_forward[i+1] = x_forward[i]·(1 + hλ)` exactly for every i = 0..N−1. -/
theorem forward_scheme_recurrence (lam hs x0 : ℝ) (N : ℕ) (hN : 1 ≤ N) :
    x_forward lam hs x0 0 = x0 ∧
    ∀ i, i < N → x_forward lam hs x0 (i + 1) = x_forward lam hs x0 i * (1 + hs * lam) := by
  exact ⟨rfl, fun i _ => rfl⟩

/-- Witness for C1 at λ = 2, h = 1, x0 = 3, N = 1. -/
theorem forward_scheme_recurrence_witness :
    x_forward 2 1 3 0 = 3 ∧
    ∀ i, i < 1 → x_forward 2 1 3 (i + 1) = x_forward 2 1 3 i * (1 + 1 * 2) :=
  forward_scheme_recurrence 2 1 3 1 (by norm_num)

/-- C2: for every real λ, h with 1 − hλ ≠ 0, x0 and integer N ≥ 1, the
backward-scheme trajectory satisfies `x_backward[0] = x0` and, for every
i = 1..N, `x_backward[i] = x_backward[i-1] / (1 − hλ)`, equivalently
`x_backward[i]·(1 − hλ) = x_backward[i-1]`. -/
theorem backward_scheme_recurrence (lam hs x0 : ℝ) (N : ℕ) (hN : 1 ≤ N)
    (hd : 1 - hs * lam ≠ 0) :
    x_backward lam hs x0 0 = x0 ∧
    ∀ i, 1 ≤ i → i ≤ N →
      x_backward lam hs x0 i = x_backward lam hs x0 (i - 1) / (1 - hs * lam) ∧
      x_backward lam hs x0 i * (1 - hs * lam) = x_backward lam hs x0 (i - 1) := by
  refine ⟨rfl, fun i hi _ => ?_⟩
  obtain ⟨j, rfl⟩ := Nat.exists_eq_add_of_le hi
  simp only [Nat.add_sub_cancel' hi, Nat.add_comm 1 j]
  exact ⟨by simp [x_backward], by simp [x_backward, div_mul_cancel₀ _ hd]⟩

/-- Witness for C2 at λ = 1, h = 1/2, x0 = 3, N = 2
(so 1 − hλ = 1/2 ≠ 0). -/
theorem backward_scheme_recurrence_witness :
    x_backward 1 (1/2) 3 0 = 3 ∧
    ∀ i, 1 ≤ i → i ≤ 2 →
      x_backward 1 (1/2) 3 i = x_backward 1 (1/2) 3 (i - 1) / (1 - (1/2) * 1) ∧
      x_backward 1 (1/2) 3 i * (1 - (1/2) * 1) = x_backward 1 (1/2) 3 (i - 1) :=
  backward_scheme_recurrence 1 (1/2) 3 2 (by norm_num) (by norm_num)

/-- C5: for every T > 0 and integer N ≥ 1, the grid builder outputs
h = T/N and an ordered sequence of exactly N+1 sample times with
`t_i = i·h` for every i = 0..N, evenly spaced (consecutive difference
h, strictly increasing), with `t_0 = 0` and `t_N = T`. -/
theorem grid_builder_spec (T : ℝ) (N : ℕ) (hT : 0 < T) (hN : 1 ≤ N) :
    h T N = T / N ∧
    (grid T N).length = N + 1 ∧
    (∀ i, i ≤ N → t T N i = i * h T N) ∧
    (∀ i, (hi : i < (grid T N).length) → (grid T N).get ⟨i, hi⟩ = t T N i) ∧
    t T N 0 = 0 ∧
    t T N N = T ∧
    (∀ i, i < N → t T N (i + 1) - t T N i = h T N) ∧
    (∀ i, i < N → t T N i < t T N (i + 1)) := by
  have hN0 : (N : ℝ) ≠ 0 := Nat.cast_ne_zero.mpr (by omega)
  have hh : 0 < h T N := by
    have : (0 : ℝ) < N := by positivity
    exact div_pos hT this
  refine ⟨rfl, by simp [grid], fun i _ => rfl, ?_, by simp [t], ?_, ?_, ?_⟩
  · intro i hi
    simp [grid]
  · show (N : ℝ) * (T / N) = T
    field_simp
  · intro i _
    simp only [t]
    push_cast
    ring
  · intro i _
    simp only [t]
    push_cast
    nlinarith

/-- Witness for C5 at T = 5, N = 5. -/
theorem grid_builder_spec_witness :
    h 5 5 = 5 / (5 : ℕ) ∧
    (grid 5 5).length = 5 + 1 ∧
    (∀ i, i ≤ 5 → t 5 5 i = i * h 5 5) ∧
    (∀ i, (hi : i < (grid 5 5).length) → (grid 5 5).get ⟨i, hi⟩ = t 5 5 i) ∧
    t 5 5 0 = 0 ∧
    t 5 5 5 = 5 ∧
    (∀ i, i < 5 → t 5 5 (i + 1) - t 5 5 i = h 5 5) ∧
    (∀ i, i < 5 → t 5 5 i < t 5 5 (i + 1)) :=
  grid_builder_spec 5 5 (by norm_num) (by norm_num)

/-- C6: for every real λ, x0 and grid t_0..t_N, the exact-solution
evaluator outputs `x_exact[i] = x0 * exp(λ t_i)` at every index i:
the value is the bare formula, with no masking or post-processing of
any entry. -/
theorem exact_solution_formula (lam x0 T : ℝ) (N : ℕ) :
    ∀ i, x_exact lam x0 T N i = x0 * Real.exp (lam * t T N i) :=
  fun _ => rfl

/-- C3: for every real λ, T > 0, x0 and integer N ≥ 2, the
central-scheme trajectory is seeded `x_central[0] = x0` and
`x_central[1] = x0·exp(λh)` (the exact solution at the first grid
point), and satisfies `x_central[i+1] = x_central[i-1] + 2hλ·x_central[i]`
for every i = 1..N−1, the recurrence exactly as stated. -/
theorem central_scheme_recurrence (lam T x0 : ℝ) (N : ℕ) (hT : 0 < T) (hN : 2 ≤ N) :
    x_central lam x0 T N 0 = x0 ∧
    x_central lam x0 T N 1 = x0 * Real.exp (lam * h T N) ∧
    ∀ i, 1 ≤ i → i ≤ N - 1 →
      x_central lam x0 T N (i + 1) =
        x_central lam x0 T N (i - 1) + 2 * h T N * lam * x_central lam x0 T N i := by
  refine ⟨rfl, ?_, ?_⟩
  · simp [x_central, x_exact, t]
  · intro i hi _
    obtain ⟨j, rfl⟩ := Nat.exists_eq_add_of_le hi
    simp only [Nat.add_sub_cancel' hi, Nat.add_comm 1 j]
    rfl

/-- Witness for C3 at λ = −1, T = 5, x0 = 1, N = 5. -/
theorem central_scheme_recurrence_witness :
    x_central (-1) 1 5 5 0 = 1 ∧
    x_central (-1) 1 5 5 1 = 1 * Real.exp ((-1) * h 5 5) ∧
    ∀ i, 1 ≤ i → i ≤ 5 - 1 →
      x_central (-1) 1 5 5 (i + 1) =
        x_central (-1) 1 5 5 (i - 1) + 2 * h 5 5 * (-1) * x_central (-1) 1 5 5 i :=
  central_scheme_recurrence (-1) 5 1 5 (by norm_num) (by norm_num)

/-- C4: the stability diagnostic holds iff |1 + hλ| < 1; in particular
λ = −1, T = 5, N = 5 (h = 1) is reported stable, and λ = −3, T = 5,
N = 5 (h = 1) is reported unstable. -/
theorem forward_stable_iff :
    (∀ hs lam : ℝ, forward_stable hs lam ↔ |1 + hs * lam| < 1) ∧
    forward_stable (h 5 5) (-1) ∧
    ¬ forward_stable (h 5 5) (-3) := by
  refine ⟨fun _ _ => Iff.rfl, ?_, ?_⟩
  · norm_num [forward_stable, h]
  · norm_num [forward_stable, h]

/-- C7 (failing input): at λ = 1, T = 5, N = 5, x0 = 1 the backward
denominator 1 − hλ is exactly 0 (so certainly |1 − hλ| < 1e-14), yet
the code performs the division unconditionally — the entry at index 1
is literally the quotient of the previous entry by the vanishing
denominator, with no not-a-number marker, no SingularStepError and no
guard of any kind (under real semantics the unguarded quotient is the
junk value 0; under IEEE floats it is a silent division by zero). -/
theorem backward_singular_step_unguarded :
    |1 - h 5 5 * 1| < 1e-14 ∧
    1 - h 5 5 * 1 = 0 ∧
    x_backward 1 (h 5 5) 1 1 = x_backward 1 (h 5 5) 1 0 / (1 - h 5 5 * 1) ∧
    x_backward 1 (h 5 5) 1 1 = 0 := by
  refine ⟨by norm_num [h], by norm_num [h], rfl, ?_⟩
  norm_num [x_backward, h]

/-- C8 (failing input): at T = −1 ≤ 0, N = 5 the pipeline raises no
error at all: the grid builder happily produces the negative step
h = −1/5 and the forward recurrence runs and produces trajectory
values (index 1 holds 4/5 for λ = 1, x0 = 1) — no InvalidGridError
exists anywhere in the code. -/
theorem invalid_grid_not_rejected :
    h (-1) 5 = -(1/5) ∧
    x_forward 1 (h (-1) 5) 1 1 = 1 * (1 + h (-1) 5 * 1) ∧
    x_forward 1 (h (-1) 5) 1 1 = 4/5 := by
  refine ⟨by norm_num [h], rfl, ?_⟩
  norm_num [x_forward, h]

/-- C9: the pipeline is a deterministic pure function of its inputs:
two runs on equal inputs (λ, T, x0, N) produce identical outputs for
all three scheme trajectories — there is no randomness and no
iteration-order ambiguity. -/
theorem pipeline_deterministic (lam₁ lam₂ T₁ T₂ x₁ x₂ : ℝ) (N₁ N₂ : ℕ)
    (hlam : lam₁ = lam₂) (hT : T₁ = T₂) (hx : x₁ = x₂) (hN : N₁ = N₂) :
    pipeline lam₁ T₁ x₁ N₁ = pipeline lam₂ T₂ x₂ N₂ := by
  subst hlam hT hx hN
  rfl

/-- Witness for C9 at λ = −1, T = 5, x0 = 1, N = 5. -/
theorem pipeline_deterministic_witness :
    pipeline (-1) 5 1 5 = pipeline (-1) 5 1 5 :=
  pipeline_deterministic (-1) (-1) 5 5 1 1 5 5 rfl rfl rfl rfl

/-- C10: for every λ < 0, T > 0, integer N ≥ 1 and x0 > 0, the
backward-scheme trajectory is positive at every index 1..N and
strictly decreasing: 0 < x_backward[i] < x_backward[i−1] — the
backward scheme exhibits unconditional monotone decay for decaying
problems at every grid resolution. -/
theorem backward_monotone_decay (lam T x0 : ℝ) (N : ℕ)
    (hlam : lam < 0) (hT : 0 < T) (hN : 1 ≤ N) (hx0 : 0 < x0) :
    ∀ i, 1 ≤ i → i ≤ N →
      0 < x_backward lam (h T N) x0 i ∧
      x_backward lam (h T N) x0 i < x_backward lam (h T N) x0 (i - 1) := by
  have hNpos : (0 : ℝ) < N := by
    exact_mod_cast Nat.lt_of_lt_of_le Nat.zero_lt_one hN
  have hh : 0 < h T N := div_pos hT hNpos
  have hd : 1 < 1 - h T N * lam := by nlinarith
  have hpos : ∀ i, 0 < x_backward lam (h T N) x0 i := by
    intro i
    induction i with
    | zero => exact hx0
    | succ j ih => exact div_pos ih (by linarith)
  intro i hi _
  obtain ⟨j, rfl⟩ := Nat.exists_eq_add_of_le hi
  simp only [Nat.add_sub_cancel' hi, Nat.add_comm 1 j]
  exact ⟨hpos _, div_lt_self (hpos j) hd⟩

/-- Witness for C10 at λ = −1, T = 5, N = 5, x0 = 1, index i = 3. -/
theorem backward_monotone_decay_witness :
    0 < x_backward (-1) (h 5 5) 1 3 ∧
    x_backward (-1) (h 5 5) 1 3 < x_backward (-1) (h 5 5) 1 (3 - 1) :=
  backward_monotone_decay (-1) 5 1 5 (by norm_num) (by norm_num) (by norm_num)
    (by norm_num) 3 (by norm_num) (by norm_num)

end FiniteDifference
